import Mathlib

/-!
Verification of the asynchronous batch-patch execution engine in
`src/server/api/text/text.controller.js`.

The JavaScript code is shallowly embedded: dynamic JS values become the
`JsValue` inductive, callback-style handlers become functions returning the
callback arguments together with the store calls they performed, a thrown
exception becomes the `Except.error` branch, and the external database
(`db.addClassesToText`, `db.removeClassesFromText`, `db.updateTextMetadata`)
becomes an oracle parameter `Store`.
-/

set_option maxHeartbeats 1000000

namespace TextController

/-- JS-like dynamic values (the shapes the controller manipulates). -/
inductive JsValue where
  | undefined
  | null
  | bool (b : Bool)
  | num (n : Int)
  | str (s : String)
  | arr (xs : List JsValue)
  | obj (kvs : List (String × JsValue))

/-- JS truthiness. -/
def truthy : JsValue → Bool
  | .undefined => false
  | .null => false
  | .bool b => b
  | .num n => n != 0
  | .str s => !s.isEmpty
  | .arr _ => true
  | .obj _ => true

/-- Embeds the test `typeof v === "string" || v instanceof String`. -/
def isJsString : JsValue → Bool
  | .str _ => true
  | _ => false

/-- First binding of a key in the key/value list of an object (JS objects have
at most one binding per key; we look up the first). -/
def lookupKey (kvs : List (String × JsValue)) (k : String) : Option JsValue :=
  (kvs.find? (fun p => p.1 == k)).map (·.2)

/-- Property access `v[k]` in the contexts where the code has already
guarded `v` against `null`/`undefined` (on primitives it yields
`undefined`, on objects the own property or `undefined`). -/
def jsFieldSafe : JsValue → String → JsValue
  | .obj kvs, k => (lookupKey kvs k).getD .undefined
  | _, _ => .undefined

/-- A patch operation is the JS object the caller submitted: a key/value
list (`requests.verifyObjectsList` guarantees each element is an object). -/
abbrev Operation := List (String × JsValue)

/-- Property access on an operation object (`patchoperation.op` etc.). -/
def opAccess (o : Operation) (k : String) : JsValue :=
  (lookupKey o k).getD .undefined

/-- Own-property test on an operation object (what `_.has` checks). -/
def opHasKey (o : Operation) (k : String) : Bool :=
  (lookupKey o k).isSome

/-- The error objects produced by the `dberrors` module and by the store. -/
structure DatabaseError where
  category : String
  message : String
  code : Nat
deriving Repr, DecidableEq

/-- Modelled from the spec: `dberrors.invalid` (the `dberrors` module is not
under `src/`); §7 classifies these as validation errors reported per
operation.  Only its identity as "an invalid-value error carrying this
message" matters to the claims. -/
def dberrorsInvalid (msg : String) : DatabaseError :=
  { category := "invalid", message := msg, code := 400 }

/-- One call made to the external database collaborator. -/
inductive StoreCall where
  | addClassesToText (tenantid textid : String) (classes : List JsValue)
  | removeClassesFromText (tenantid textid : String) (classes : List JsValue)
  | updateTextMetadata (tenantid textid : String) (metadata : JsValue)

/-- The reply of the database to one call (node callback convention). -/
inductive DbResult where
  | ok (result : JsValue)
  | err (e : DatabaseError)

/-- The external Resource Store as an oracle: each call gets a reply. -/
abbrev Store := StoreCall → DbResult

/-- Embeds `sanitizeMetadata` (lines 63–72): returns the `{value, metadata}` patch
object, or `null` (here `none`) when the value is falsy or has neither
field truthy. -/
def sanitizeMetadata (value : JsValue) : Option JsValue :=
  if truthy value && (truthy (jsFieldSafe value "value") || truthy (jsFieldSafe value "metadata")) then
    some (.obj [("value", jsFieldSafe value "value"), ("metadata", jsFieldSafe value "metadata")])
  else
    none

/-- The mapper of `getClassesToPatch` (function `getIds`, lines 75–78):
`cls.id` when `cls` is truthy and its `id` is a string, else `undefined`. -/
def getIds (cls : JsValue) : JsValue :=
  if truthy cls && isJsString (jsFieldSafe cls "id") then jsFieldSafe cls "id" else .undefined

/-- Embeds `getClassesToPatch` (lines 74–84): map to ids, then keep the truthy
ones (function `makeDense`). -/
def getClassesToPatch (values : List JsValue) : List JsValue :=
  (values.map getIds).filter truthy

/-- The two arguments a handler passes to its callback (`err`, `result`);
an absent `result` is `undefined`. -/
structure CallbackArgs where
  err : Option DatabaseError
  result : JsValue

/-- What one domain handler invocation did: the store calls it made and the
arguments it gave its callback. -/
structure HandlerOutput where
  calls : List StoreCall
  args : CallbackArgs

/-- Embeds `patchTextClasses` (lines 86–117).  `Except.error` is a thrown
exception: when `patchoperation.value` is not an array, `value.map` throws
a `TypeError` before any callback is invoked. -/
def patchTextClasses (store : Store) (tenantid textid : String) (patchoperation : Operation) :
    Except String HandlerOutput :=
  match opAccess patchoperation "op" with
  | .str "add" =>
    match opAccess patchoperation "value" with
    | .arr values =>
      let tenantsToAdd := getClassesToPatch values
      if tenantsToAdd.length != values.length then
        .ok ⟨[], ⟨some (dberrorsInvalid "Invalid value array"), .undefined⟩⟩
      else
        let call := StoreCall.addClassesToText tenantid textid tenantsToAdd
        match store call with
        | .ok result => .ok ⟨[call], ⟨none, result⟩⟩
        | .err e => .ok ⟨[call], ⟨some e, .undefined⟩⟩
    | _ => .error "patchoperation.value.map is not a function"
  | .str "remove" =>
    match opAccess patchoperation "value" with
    | .arr values =>
      let tenantsToRemove := getClassesToPatch values
      if tenantsToRemove.length != values.length then
        .ok ⟨[], ⟨some (dberrorsInvalid "Invalid value array"), .undefined⟩⟩
      else
        let call := StoreCall.removeClassesFromText tenantid textid tenantsToRemove
        match store call with
        | .ok result => .ok ⟨[call], ⟨none, result⟩⟩
        | .err e => .ok ⟨[call], ⟨some e, .undefined⟩⟩
    | _ => .error "patchoperation.value.map is not a function"
  | _ => .ok ⟨[], ⟨some (dberrorsInvalid "Unsupported operation"), .undefined⟩⟩

/-- Embeds `patchTextMetadata` (lines 119–138). -/
def patchTextMetadata (store : Store) (tenantid textid : String) (patchoperation : Operation) :
    Except String HandlerOutput :=
  match opAccess patchoperation "op" with
  | .str "replace" =>
    match sanitizeMetadata (opAccess patchoperation "value") with
    | none => .ok ⟨[], ⟨some (dberrorsInvalid "Invalid value"), .undefined⟩⟩
    | some metadata =>
      let call := StoreCall.updateTextMetadata tenantid textid metadata
      match store call with
      | .ok result => .ok ⟨[call], ⟨none, result⟩⟩
      | .err e => .ok ⟨[call], ⟨some e, .undefined⟩⟩
  | _ => .ok ⟨[], ⟨some (dberrorsInvalid "Unsupported operation"), .undefined⟩⟩

/-- The `STATUS` enumeration (lines 43–47). -/
inductive Status where
  | running
  | complete
  | error
deriving Repr, DecidableEq

/-- The status record `details` (lines 293–297). -/
structure PatchDetails where
  status : Status
  success : Nat
  error : Nat
deriving Repr, DecidableEq

/-- Embeds `MINUTE` (line 40), in milliseconds. -/
def MINUTE : Nat := 1000 * 60

/-- One `cache.put(patchid, details, ttl)`: the record written (a snapshot
of `details` at that moment) and the time-to-live passed. -/
abbrev PutEvent := PatchDetails × Nat

/-- Outcome of a settled operation as materialised into the result list:
the success value of the domain handler, or a `PatchError` wrapping the
database error and the originating operation (lines 56–61). -/
inductive Outcome where
  | success (result : JsValue)
  | patchError (err : DatabaseError) (operation : Operation)

/-- Embeds the counting step of the `handleResult` closure returned by
`operationHandler` (lines
222–231): on `err` increment `error` and wrap a `PatchError`, otherwise
increment `success` and pass the result through. -/
def operationHandler (patchoperation : Operation) (patchdetails : PatchDetails)
    (args : CallbackArgs) : PatchDetails × Outcome :=
  match args.err with
  | some e =>
    ({ patchdetails with error := patchdetails.error + 1 }, .patchError e patchoperation)
  | none =>
    ({ patchdetails with success := patchdetails.success + 1 }, .success args.result)

/-- What one iteration of `applyPatch` (lines 303–316) produced: the
updated shared `details`, the two arguments handed to `nextop`
(`operationHandler` always invokes `callback(null, output)`, line 234; the
unsupported-path branch invokes `nextop(null, new PatchError(...))`, line
315), the store calls made, and the `cache.put` writes performed. -/
structure StepResult where
  details : PatchDetails
  delivered : Option DatabaseError × Outcome
  calls : List StoreCall
  puts : List PutEvent

/-- Embeds the tests `patchoperation.path === "/classes"` and friends. -/
def pathIs (patchoperation : Operation) (p : String) : Bool :=
  match opAccess patchoperation "path" with
  | .str s => s == p
  | _ => false

/-- One iteration of the batch executor: route by path (lines 308–316),
run the matching handler with `operationHandler` as callback, which also
performs `cache.put(patchid, patchdetails, 5 * MINUTE)` (line 233).  The
unsupported-path branch increments the error counter and calls `nextop`
directly, with no `cache.put` (lines 313–315). -/
def applyPatch (store : Store) (tenantid textid : String) (details : PatchDetails)
    (patchoperation : Operation) : Except String StepResult :=
  if pathIs patchoperation "/classes" then
    match patchTextClasses store tenantid textid patchoperation with
    | .error e => .error e
    | .ok out =>
      let r := operationHandler patchoperation details out.args
      .ok ⟨r.1, (none, r.2), out.calls, [(r.1, 5 * MINUTE)]⟩
  else if pathIs patchoperation "/metadata" then
    match patchTextMetadata store tenantid textid patchoperation with
    | .error e => .error e
    | .ok out =>
      let r := operationHandler patchoperation details out.args
      .ok ⟨r.1, (none, r.2), out.calls, [(r.1, 5 * MINUTE)]⟩
  else
    let d := { details with error := details.error + 1 }
    .ok ⟨d, (none, .patchError (dberrorsInvalid "Unsupported operation") patchoperation), [], []⟩

/-- The iterations of `async.mapLimit` (line 303), linearised in
submission order (JavaScript runs each `handleResult` body atomically on
the single event-loop thread, so the shared `details` record sees one
increment per settled operation in some serial order; the counters and the
per-index outcome list do not depend on which order).  A thrown exception
(`Except.error`) aborts the run and carries the `details` as they stood. -/
def runOps (store : Store) (tenantid textid : String) :
    PatchDetails → List Operation →
    Except (String × PatchDetails)
      (PatchDetails × List (Option DatabaseError × Outcome) × List StoreCall × List PutEvent)
  | details, [] => .ok (details, [], [], [])
  | details, patchoperation :: rest =>
    match applyPatch store tenantid textid details patchoperation with
    | .error e => .error (e, details)
    | .ok step =>
      match runOps store tenantid textid step.details rest with
      | .error e => .error e
      | .ok (dfin, ds, cs, ps) =>
        .ok (dfin, step.delivered :: ds, step.calls ++ cs, step.puts ++ ps)

/-- Embeds `socketMessageNameBuilder` (lines 238–255): `name += operation.op`
string-coerces a non-string `op`; `substring(1)` on an ASCII path is
`drop 1`. -/
def jsCoerceString : JsValue → String
  | .undefined => "undefined"
  | .null => "null"
  | .bool b => if b then "true" else "false"
  | .num n => toString n
  | .str s => s
  | .arr xs => String.intercalate ","
      (xs.attach.map fun x =>
        match x with
        | ⟨.null, _⟩ => ""
        | ⟨.undefined, _⟩ => ""
        | ⟨v, _⟩ => jsCoerceString v)
  | .obj _ => "[object Object]"
decreasing_by
  all_goals
    simp_wf
    rename_i h
    have := List.sizeOf_lt_of_mem h
    omega

def socketMessageNameBuilder (operation : JsValue) : String :=
  (if truthy operation && truthy (jsFieldSafe operation "path")
      && isJsString (jsFieldSafe operation "path") then
    (let p := jsCoerceString (jsFieldSafe operation "path")
     if p.startsWith "/" then p.drop 1 else p)
  else
    "unknown")
  ++ ":" ++
  (if truthy operation && truthy (jsFieldSafe operation "op") then
    jsCoerceString (jsFieldSafe operation "op")
  else
    "unknown")

/-- Embeds the lodash test on path operation.value.value applied to a
`PatchError` (line 264):
`data.operation` always exists; its `value` must be an own key holding an
object with an own `value` key. -/
def opHasValueValue (operation : Operation) : Bool :=
  match lookupKey operation "value" with
  | some (.obj kvs) => (lookupKey kvs "value").isSome
  | _ => false

/-- Embeds the access `data.operation.value.value` (line 265), in the
guarded branch. -/
def opValueValue (operation : Operation) : JsValue :=
  match lookupKey operation "value" with
  | some v => jsFieldSafe v "value"
  | none => .undefined

/-- Embeds the lodash test on path metadata.value applied to a success
result (line 273). -/
def hasMetadataValue : JsValue → Bool
  | .obj kvs =>
    match lookupKey kvs "metadata" with
    | some (.obj kvs2) => (lookupKey kvs2 "value").isSome
    | _ => false
  | _ => false

/-- Embeds a `.length` access on an already-truthy value (line 271). -/
def jsLength : JsValue → JsValue
  | .str s => .num s.length
  | .arr xs => .num xs.length
  | .obj kvs => (lookupKey kvs "length").getD .undefined
  | _ => .undefined

/-- The event payload object assembled by `socketResponseBuilder`: `id` is
always set (line 259); `error` holds the `PatchError` when the outcome is
one; at most one of `value`/`classes` is set. -/
structure SocketResponse where
  id : String
  error : Option (DatabaseError × Operation)
  value : Option JsValue
  classes : Option JsValue

/-- Embeds `socketResponseBuilder` (lines 257–280): `Except.error` is the
`TypeError` thrown by `data.classes` when a success result is
`null`/`undefined`. -/
def socketResponseBuilder (textid : String) (data : Outcome) :
    Except String (Option SocketResponse) :=
  match data with
  | .patchError e operation =>
    if opHasValueValue operation then
      .ok (some ⟨textid, some (e, operation), some (opValueValue operation), none⟩)
    else if opHasKey operation "value" then
      .ok (some ⟨textid, some (e, operation), none, some (opAccess operation "value")⟩)
    else
      .ok (some ⟨textid, some (e, operation), none, none⟩)
  | .success r =>
    match r with
    | .null => .error "Cannot read property classes of null"
    | .undefined => .error "Cannot read property classes of undefined"
    | _ =>
      let classes := jsFieldSafe r "classes"
      if truthy classes && truthy (jsLength classes) then
        .ok (some ⟨textid, none, none, some classes⟩)
      else if hasMetadataValue r then
        .ok (some ⟨textid, none, some (jsFieldSafe (jsFieldSafe r "metadata") "value"), none⟩)
      else
        .ok none

/-- One published socket event: the name passed to `socketUtil.send` and
the payload. -/
structure SocketEvent where
  name : String
  payload : SocketResponse

/-- Embeds `result.operation` as evaluated at line 330: the wrapped
operation for
a `PatchError`; for a success value the own `operation` field of the
store result
field, normally absent (`undefined`).  A `null`/`undefined` success result
never reaches this access because `socketResponseBuilder` throws on it
first and returns no response for other primitives. -/
def operationOfOutcome : Outcome → JsValue
  | .patchError _ operation => .obj operation
  | .success r => jsFieldSafe r "operation"

/-- The `data.forEach` publication loop (lines 327–332): build the
response; when it is not `null`, publish under
the concatenation of the literal text:update: prefix and
`socketMessageNameBuilder(result.operation)`. -/
def eventsOf (textid : String) : List Outcome → Except String (List SocketEvent)
  | [] => .ok []
  | data :: rest =>
    match socketResponseBuilder textid data with
    | .error e => .error e
    | .ok none => eventsOf textid rest
    | .ok (some response) =>
      match eventsOf textid rest with
      | .error e => .error e
      | .ok tail =>
        .ok (⟨"text:update:" ++ socketMessageNameBuilder (operationOfOutcome data), response⟩ :: tail)

/-- Everything observable from one `editText` batch run: the final status
record, the `(err, output)` pairs delivered to the executor (in submission
order), the store calls, the `cache.put` trace (in order: creation write,
per-operation writes, terminal write), and the socket events published by
the completion callback. -/
structure BatchResult where
  details : PatchDetails
  deliveries : List (Option DatabaseError × Outcome)
  calls : List StoreCall
  puts : List PutEvent
  events : Except String (List SocketEvent)

/-- Embeds the batch machinery of `editText` (lines 291–333): create the `RUNNING`
record with zero counts, `cache.put` it with a 5-minute TTL, run the
operations, then in `handlePatchResponse` set the terminal status —
`ERROR` when the executor was handed a (first) non-null `err`, else
`COMPLETE` — write the record again, and publish one event per non-null
response.  (`async.mapLimit` reports the first error delivered by an
iterator; since the embedding shows every delivered `err` is `null`, the
linearised `findSome?` over all deliveries is faithful.) -/
def editText (store : Store) (tenantid textid : String) (patchoperations : List Operation) :
    Except (String × PatchDetails) BatchResult :=
  let details : PatchDetails := ⟨.running, 0, 0⟩
  match runOps store tenantid textid details patchoperations with
  | .error e => .error e
  | .ok (d, ds, cs, ps) =>
    let finalErr := ds.findSome? Prod.fst
    let dfin : PatchDetails :=
      { d with status := if finalErr.isSome then Status.error else Status.complete }
    .ok ⟨dfin, ds, cs,
         ((details, 5 * MINUTE) :: ps) ++ [(dfin, 5 * MINUTE)],
         eventsOf textid (ds.map Prod.snd)⟩

/-- Modelled from the spec: a stored status record of the in-process
status store (the `memory-cache` npm package, not under `src/`).  §4.3:
`put(id, record)` "(re)starts a fixed-duration expiry timer from the time
of this call"; a record is retrievable until its TTL elapses. -/
structure CacheEntry where
  record : PatchDetails
  writeTime : Nat
  ttl : Nat
deriving Repr, DecidableEq

/-- Modelled from the spec: the id-keyed status store state. -/
abbrev StatusCache := List (String × CacheEntry)

/-- Modelled from the spec: `cache.put(id, record, ttl)` at time `now` —
"inserts or overwrites" and restarts the expiry timer from this call. -/
def cachePut (c : StatusCache) (id : String) (record : PatchDetails) (ttl now : Nat) :
    StatusCache :=
  (id, ⟨record, now, ttl⟩) :: c.filter (fun p => p.1 != id)

/-- Modelled from the spec: `cache.get(id)` at time `now` — "returns the
current record or a not-found indication if absent or expired"; the record
is present strictly before `writeTime + ttl` and absent from then on. -/
def cacheGet (c : StatusCache) (id : String) (now : Nat) : Option PatchDetails :=
  match c.find? (fun p => p.1 == id) with
  | some (_, e) => if now < e.writeTime + e.ttl then some e.record else none
  | none => none

/-- Embeds `patchStatus` (lines 396–407): return the cached details as the 200
body, or not-found (`none`) when the cache has nothing for the id. -/
def patchStatus (c : StatusCache) (patchid : String) (now : Nat) : Option PatchDetails :=
  cacheGet c patchid now

/-- Modelled from the spec: the scheduling state of `async.mapLimit`
(the `async` npm package, not under `src/`) for one batch: how many
operations are not yet started, are in flight against their handler, and
have settled. -/
structure SchedulerState where
  pending : Nat
  inflight : Nat
  settled : Nat
deriving Repr, DecidableEq

/-- Modelled from the spec: `async.mapLimit` admits a pending operation
only while fewer than `limit` are in flight, and an in-flight operation
may settle at any time, freeing its slot (§5: "as soon as any in-flight
slot frees, the next queued operation is admitted"). -/
inductive SchedulerStep (limit : Nat) : SchedulerState → SchedulerState → Prop
  | start (p f s : Nat) : f < limit →
      SchedulerStep limit ⟨p + 1, f, s⟩ ⟨p, f + 1, s⟩
  | settle (p f s : Nat) :
      SchedulerStep limit ⟨p, f + 1, s⟩ ⟨p, f, s + 1⟩

/-- States reachable by the scheduler from an initial state. -/
inductive SchedulerReachable (limit : Nat) (init : SchedulerState) : SchedulerState → Prop
  | refl : SchedulerReachable limit init init
  | step {s t : SchedulerState} : SchedulerReachable limit init s →
      SchedulerStep limit s t → SchedulerReachable limit init t

/-- The concurrency ceiling passed to `async.mapLimit` at line 303. -/
def mapLimitConcurrency : Nat := 10

section Fixtures

/-- First operation of the end-to-end scenario in spec §8.6. -/
def opAddClasses : Operation :=
  [("op", .str "add"), ("path", .str "/classes"),
   ("value", .arr [.obj [("id", .str "c1")], .obj [("id", .str "c2")]])]

/-- Second operation of the end-to-end scenario in spec §8.6. -/
def opReplaceMetadata : Operation :=
  [("op", .str "replace"), ("path", .str "/metadata"),
   ("value", .obj [("value", .str "x"), ("metadata", .obj [])])]

/-- Third operation of the end-to-end scenario in spec §8.6. -/
def opBogus : Operation :=
  [("op", .str "bogus"), ("path", .str "/nope")]

/-- The §8.6 batch. -/
def exampleBatch : List Operation := [opAddClasses, opReplaceMetadata, opBogus]

/-- A store stub on which every call succeeds with an empty document. -/
def okStore : Store := fun _ => .ok (.obj [])

/-- A store stub on which every call succeeds with a one-element
`classes` collection. -/
def classStore : Store := fun _ => .ok (.obj [("classes", .arr [.str "c1"])])

end Fixtures

/-- Embeds the test `patchoperation.op === v` for a string literal `v`. -/
def opIs (patchoperation : Operation) (v : String) : Bool :=
  match opAccess patchoperation "op" with
  | .str s => s == v
  | _ => false

/-- Shape of an operation that takes the immediate unsupported-operation
path: a recognized target with an illegal verb, or an unrecognized target. -/
def isUnsupported (patchoperation : Operation) : Bool :=
  (pathIs patchoperation "/classes" && !opIs patchoperation "add" && !opIs patchoperation "remove")
  || (pathIs patchoperation "/metadata" && !opIs patchoperation "replace")
  || (!pathIs patchoperation "/classes" && !pathIs patchoperation "/metadata")

/-- The per-operation view of one executor iteration: what the operation
delivers to the executor, independent of the shared counters.  Stated at
the initial record; `applyPatch_delivered_eq` shows the choice is
immaterial. -/
def settleOp (store : Store) (tenantid textid : String) (patchoperation : Operation) :
    Except String (Option DatabaseError × Outcome) :=
  (applyPatch store tenantid textid ⟨.running, 0, 0⟩ patchoperation).map
    (fun s => s.delivered)

/-- Resource-aspect half of the event name as the amended C6 claim states
it: the string-coerced target path with one leading slash stripped when
the path is a truthy string, else the literal unknown token. -/
def eventAspect (operation : JsValue) : String :=
  if truthy operation && truthy (jsFieldSafe operation "path")
      && isJsString (jsFieldSafe operation "path") then
    (let p := jsCoerceString (jsFieldSafe operation "path")
     if p.startsWith "/" then p.drop 1 else p)
  else
    "unknown"

/-- Verb half of the event name as the amended C6 claim states it: the
string-coerced op when it is truthy, else the literal unknown token. -/
def eventVerb (operation : JsValue) : String :=
  if truthy operation && truthy (jsFieldSafe operation "op") then
    jsCoerceString (jsFieldSafe operation "op")
  else
    "unknown"

/-- Published events as the amended C6 claim describes them: one event per
outcome with a non-null response, named by the fixed text:update: prefix
followed by the aspect and verb derived from the operation field carried
by the outcome. -/
def eventsSpec (textid : String) : List Outcome → Except String (List SocketEvent)
  | [] => .ok []
  | data :: rest =>
    match socketResponseBuilder textid data with
    | .error e => .error e
    | .ok none => eventsSpec textid rest
    | .ok (some response) =>
      match eventsSpec textid rest with
      | .error e => .error e
      | .ok tail =>
        .ok (⟨"text:update:"
                ++ (eventAspect (operationOfOutcome data) ++ ":"
                    ++ eventVerb (operationOfOutcome data)), response⟩ :: tail)

theorem operationHandler_counts (patchoperation : Operation) (d : PatchDetails)
    (args : CallbackArgs) :
    (operationHandler patchoperation d args).1.success + (operationHandler patchoperation d args).1.error
      = d.success + d.error + 1
    ∧ (operationHandler patchoperation d args).1.status = d.status := by
  unfold operationHandler
  cases args.err <;> simp <;> omega

theorem operationHandler_snd_eq (patchoperation : Operation) (d d2 : PatchDetails)
    (args : CallbackArgs) :
    (operationHandler patchoperation d args).2 = (operationHandler patchoperation d2 args).2 := by
  unfold operationHandler
  cases args.err <;> rfl

theorem applyPatch_ok (store : Store) (t x : String) (d : PatchDetails)
    (patchoperation : Operation) (step : StepResult)
    (h : applyPatch store t x d patchoperation = .ok step) :
    step.delivered.1 = none
    ∧ step.details.success + step.details.error = d.success + d.error + 1
    ∧ step.details.status = d.status := by
  unfold applyPatch at h
  cases hcl : pathIs patchoperation "/classes" with
  | true =>
    simp only [hcl] at h
    cases hc : patchTextClasses store t x patchoperation with
    | error e => simp [hc] at h
    | ok out =>
      simp only [hc] at h
      injection h with h
      subst h
      refine ⟨rfl, ?_, ?_⟩
      · exact (operationHandler_counts patchoperation d out.args).1
      · exact (operationHandler_counts patchoperation d out.args).2
  | false =>
    simp only [hcl] at h
    cases hmd : pathIs patchoperation "/metadata" with
    | true =>
      simp only [hmd] at h
      cases hc : patchTextMetadata store t x patchoperation with
      | error e => simp [hc] at h
      | ok out =>
        simp only [hc] at h
        injection h with h
        subst h
        refine ⟨rfl, ?_, ?_⟩
        · exact (operationHandler_counts patchoperation d out.args).1
        · exact (operationHandler_counts patchoperation d out.args).2
    | false =>
      simp only [hmd] at h
      injection h with h
      subst h
      exact ⟨rfl, by simp; omega, rfl⟩

theorem applyPatch_delivered_eq (store : Store) (t x : String)
    (patchoperation : Operation) (d d2 : PatchDetails) :
    (applyPatch store t x d patchoperation).map (fun s => s.delivered)
      = (applyPatch store t x d2 patchoperation).map (fun s => s.delivered) := by
  unfold applyPatch
  cases hcl : pathIs patchoperation "/classes" with
  | true =>
    cases hc : patchTextClasses store t x patchoperation with
    | error e => simp
    | ok out => simp [Except.map, operationHandler_snd_eq patchoperation d d2 out.args]
  | false =>
    cases hmd : pathIs patchoperation "/metadata" with
    | true =>
      cases hc : patchTextMetadata store t x patchoperation with
      | error e => simp
      | ok out => simp [Except.map, operationHandler_snd_eq patchoperation d d2 out.args]
    | false => simp [Except.map]

theorem applyPatch_settleOp (store : Store) (t x : String) (d : PatchDetails)
    (patchoperation : Operation) (step : StepResult)
    (h : applyPatch store t x d patchoperation = .ok step) :
    settleOp store t x patchoperation = .ok step.delivered := by
  unfold settleOp
  rw [applyPatch_delivered_eq store t x patchoperation ⟨.running, 0, 0⟩ d, h]
  rfl

theorem length_filter_lt_of_mem_not {α : Type} (p : α → Bool) :
    ∀ l : List α, (∃ a ∈ l, p a = false) → (l.filter p).length < l.length
  | [], h => by simp at h
  | a :: l, h => by
    rcases h with ⟨b, hb, hpb⟩
    rcases List.mem_cons.mp hb with rfl | hb
    · have hle := List.length_filter_le p l
      simp [List.filter_cons, hpb]
      omega
    · cases hpa : p a with
      | true =>
        have ih := length_filter_lt_of_mem_not p l ⟨b, hb, hpb⟩
        simp [List.filter_cons, hpa]
        omega
      | false =>
        have hle := List.length_filter_le p l
        simp [List.filter_cons, hpa]
        omega

theorem runOps_ok (store : Store) (t x : String) :
    ∀ (ops : List Operation) (d dfin : PatchDetails)
      (ds : List (Option DatabaseError × Outcome)) (cs : List StoreCall) (ps : List PutEvent),
      runOps store t x d ops = .ok (dfin, ds, cs, ps) →
      dfin.success + dfin.error = d.success + d.error + ops.length
      ∧ dfin.status = d.status
      ∧ ds.length = ops.length
      ∧ (∀ dv ∈ ds, dv.1 = none)
  | [], d, dfin, ds, cs, ps, h => by
    simp only [runOps] at h
    injection h with h
    simp only [Prod.mk.injEq] at h
    obtain ⟨rfl, rfl, rfl, rfl⟩ := h
    simp
  | op :: rest, d, dfin, ds, cs, ps, h => by
    simp only [runOps] at h
    split at h
    · exact (Except.noConfusion h)
    · rename_i step ha
      split at h
      · exact (Except.noConfusion h)
      · rename_i d2 ds2 cs2 ps2 hr
        injection h with h
        simp only [Prod.mk.injEq] at h
        obtain ⟨rfl, rfl, rfl, rfl⟩ := h
        have hstep := applyPatch_ok store t x d op step ha
        have ih := runOps_ok store t x rest step.details d2 ds2 cs2 ps2 hr
        refine ⟨by simp; omega, ?_, by simp [ih.2.2.1], ?_⟩
        · rw [ih.2.1, hstep.2.2]
        · intro dv hdv
          rcases List.mem_cons.mp hdv with rfl | hdv
          · exact hstep.1
          · exact ih.2.2.2 dv hdv

theorem runOps_take (store : Store) (t x : String) :
    ∀ (ops : List Operation) (d : PatchDetails)
      (out : PatchDetails × List (Option DatabaseError × Outcome) × List StoreCall × List PutEvent)
      (k : Nat),
      runOps store t x d ops = .ok out →
      ∃ out2, runOps store t x d (ops.take k) = .ok out2
  | [], d, out, k, h => ⟨out, by simpa using h⟩
  | op :: rest, d, out, k, h => by
    cases k with
    | zero => exact ⟨(d, [], [], []), rfl⟩
    | succ k =>
      simp only [List.take_succ_cons]
      simp only [runOps] at h ⊢
      split at h
      · exact (Except.noConfusion h)
      · rename_i step ha
        split at h
        · exact (Except.noConfusion h)
        · rename_i d2 ds2 cs2 ps2 hr
          obtain ⟨out2, h2⟩ := runOps_take store t x rest step.details (d2, ds2, cs2, ps2) k hr
          rw [h2]
          exact ⟨_, rfl⟩

theorem runOps_get (store : Store) (t x : String) :
    ∀ (ops : List Operation) (d dfin : PatchDetails)
      (ds : List (Option DatabaseError × Outcome)) (cs : List StoreCall) (ps : List PutEvent)
      (i : Nat) (hi : i < ops.length),
      runOps store t x d ops = .ok (dfin, ds, cs, ps) →
      ∃ dv, settleOp store t x (ops.get ⟨i, hi⟩) = .ok dv ∧ ds.get? i = some dv
  | [], _, _, _, _, _, i, hi, _ => absurd hi (by simp)
  | op :: rest, d, dfin, ds, cs, ps, i, hi, h => by
    simp only [runOps] at h
    split at h
    · exact (Except.noConfusion h)
    · rename_i step ha
      split at h
      · exact (Except.noConfusion h)
      · rename_i d2 ds2 cs2 ps2 hr
        injection h with h
        simp only [Prod.mk.injEq] at h
        obtain ⟨rfl, rfl, rfl, rfl⟩ := h
        cases i with
        | zero =>
          exact ⟨step.delivered, applyPatch_settleOp store t x d op step ha, rfl⟩
        | succ i =>
          have hi2 : i < rest.length := by simpa using hi
          obtain ⟨dv, h1, h2⟩ :=
            runOps_get store t x rest step.details d2 ds2 cs2 ps2 i hi2 hr
          exact ⟨dv, h1, by simpa using h2⟩

theorem editText_ok_parts (store : Store) (t x : String) (ops : List Operation)
    (res : BatchResult) (h : editText store t x ops = .ok res) :
    ∃ d ds cs ps, runOps store t x ⟨.running, 0, 0⟩ ops = .ok (d, ds, cs, ps)
      ∧ res.details = { d with
          status := if (ds.findSome? Prod.fst).isSome then Status.error else Status.complete }
      ∧ res.deliveries = ds
      ∧ res.puts = ((⟨.running, 0, 0⟩, 5 * MINUTE) :: ps) ++ [(res.details, 5 * MINUTE)]
      ∧ res.events = eventsOf x (ds.map Prod.snd) := by
  simp only [editText] at h
  split at h
  · exact Except.noConfusion h
  · rename_i d ds cs ps hr
    injection h with h
    subst h
    exact ⟨d, ds, cs, ps, hr, rfl, rfl, rfl, rfl⟩

theorem editText_take (store : Store) (t x : String) (ops : List Operation)
    (res : BatchResult) (h : editText store t x ops = .ok res) (k : Nat) :
    ∃ res2, editText store t x (ops.take k) = .ok res2 := by
  obtain ⟨d, ds, cs, ps, hr, -, -, -, -⟩ := editText_ok_parts store t x ops res h
  obtain ⟨out2, h2⟩ := runOps_take store t x ops ⟨.running, 0, 0⟩ (d, ds, cs, ps) k hr
  obtain ⟨d2, ds2, cs2, ps2⟩ := out2
  refine ⟨⟨{ d2 with status := if (ds2.findSome? Prod.fst).isSome then Status.error else Status.complete },
          ds2, cs2,
          ((⟨.running, 0, 0⟩, 5 * MINUTE) :: ps2) ++
            [({ d2 with status := if (ds2.findSome? Prod.fst).isSome then Status.error
                else Status.complete }, 5 * MINUTE)],
          eventsOf x (ds2.map Prod.snd)⟩, ?_⟩
  simp only [editText]
  rw [h2]

theorem findSome?_fst_none :
    ∀ ds : List (Option DatabaseError × Outcome),
      (∀ dv ∈ ds, dv.1 = none) → ds.findSome? Prod.fst = none
  | [], _ => rfl
  | dv :: ds, h => by
    have h0 := h dv (List.mem_cons_self dv ds)
    have ih := findSome?_fst_none ds (fun y hy => h y (List.mem_cons_of_mem dv hy))
    simp [List.findSome?, h0, ih]

/-- C1: each operation of a submitted batch is counted exactly once as it
settles, so for a batch of N operations that runs to completion the final
record satisfies success + error = N with a terminal status assigned, and
after any prefix of k settled operations the counters sum to min k N,
never exceeding N. -/
theorem c1_batch_counts (store : Store) (t x : String) (ops : List Operation)
    (res : BatchResult) (h : editText store t x ops = .ok res) :
    res.details.success + res.details.error = ops.length
    ∧ (res.details.status = .complete ∨ res.details.status = .error)
    ∧ ∀ k : Nat, ∃ res2 : BatchResult,
        editText store t x (ops.take k) = .ok res2
        ∧ res2.details.success + res2.details.error = min k ops.length := by
  obtain ⟨d, ds, cs, ps, hr, hdet, -, -, -⟩ := editText_ok_parts store t x ops res h
  have hro := runOps_ok store t x ops ⟨.running, 0, 0⟩ d ds cs ps hr
  refine ⟨?_, ?_, ?_⟩
  · rw [hdet]
    have := hro.1
    simp at this ⊢
    omega
  · rw [hdet]
    cases hfs : (ds.findSome? Prod.fst).isSome <;> simp [hfs]
  · intro k
    obtain ⟨res2, h2⟩ := editText_take store t x ops res h k
    obtain ⟨d2, ds2, cs2, ps2, hr2, hdet2, -, -, -⟩ :=
      editText_ok_parts store t x (ops.take k) res2 h2
    have hro2 := runOps_ok store t x (ops.take k) ⟨.running, 0, 0⟩ d2 ds2 cs2 ps2 hr2
    refine ⟨res2, h2, ?_⟩
    rw [hdet2]
    have := hro2.1
    simp [List.length_take] at this ⊢
    omega

/-- C1 witness: the §8.6 three-operation batch against an
always-succeeding store settles with success + error = 3. -/
theorem c1_batch_counts_witness :
    (editText okStore "t" "x" exampleBatch).map
      (fun r => r.details.success + r.details.error) = .ok exampleBatch.length := by
  have h := c1_batch_counts okStore "t" "x" exampleBatch _ rfl
  have h2 : editText okStore "t" "x" exampleBatch = .ok _ := rfl
  rw [h2]
  exact congrArg Except.ok h.1

/-- C3: every per-operation failure is delivered to the batch executor as
a value with a null first (error) argument, so the terminal assignment in
the completion callback always takes the COMPLETE branch; the ERROR branch
is unreachable whenever the callback runs. -/
theorem c3_error_branch_unreachable (store : Store) (t x : String) (ops : List Operation)
    (res : BatchResult) (h : editText store t x ops = .ok res) :
    (∀ dv ∈ res.deliveries, dv.1 = none) ∧ res.details.status = .complete := by
  obtain ⟨d, ds, cs, ps, hr, hdet, hdel, -, -⟩ := editText_ok_parts store t x ops res h
  have hro := runOps_ok store t x ops ⟨.running, 0, 0⟩ d ds cs ps hr
  have hnone : ∀ dv ∈ ds, dv.1 = none := hro.2.2.2
  constructor
  · rw [hdel]; exact hnone
  · rw [hdet]
    simp [findSome?_fst_none ds hnone]

/-- C3 witness: the §8.6 batch (which contains a failing operation) still
ends with terminal status COMPLETE. -/
theorem c3_error_branch_unreachable_witness :
    (editText okStore "t" "x" exampleBatch).map (fun r => r.details.status)
      = .ok .complete := by
  have h := c3_error_branch_unreachable okStore "t" "x" exampleBatch _ rfl
  have h2 : editText okStore "t" "x" exampleBatch = .ok _ := rfl
  rw [h2]
  exact congrArg Except.ok h.2

theorem opIs_eq {o : Operation} {v : String} (h : opIs o v = true) :
    opAccess o "op" = .str v := by
  unfold opIs at h
  split at h
  · rename_i s hs
    rw [eq_of_beq h] at hs
    exact hs
  · exact absurd h (by simp)

theorem pathIs_eq {o : Operation} {p : String} (h : pathIs o p = true) :
    opAccess o "path" = .str p := by
  unfold pathIs at h
  split at h
  · rename_i s hs
    rw [eq_of_beq h] at hs
    exact hs
  · exact absurd h (by simp)

theorem patchTextClasses_add (store : Store) (t x : String) (patchoperation : Operation)
    (xs : List JsValue)
    (ho : opAccess patchoperation "op" = .str "add")
    (hv : opAccess patchoperation "value" = .arr xs) :
    patchTextClasses store t x patchoperation =
      (if (getClassesToPatch xs).length != xs.length
       then .ok ⟨[], ⟨some (dberrorsInvalid "Invalid value array"), .undefined⟩⟩
       else match store (.addClassesToText t x (getClassesToPatch xs)) with
         | .ok result => .ok ⟨[.addClassesToText t x (getClassesToPatch xs)], ⟨none, result⟩⟩
         | .err e => .ok ⟨[.addClassesToText t x (getClassesToPatch xs)], ⟨some e, .undefined⟩⟩) := by
  unfold patchTextClasses
  rw [ho, hv]
  rfl

theorem patchTextClasses_remove (store : Store) (t x : String) (patchoperation : Operation)
    (xs : List JsValue)
    (ho : opAccess patchoperation "op" = .str "remove")
    (hv : opAccess patchoperation "value" = .arr xs) :
    patchTextClasses store t x patchoperation =
      (if (getClassesToPatch xs).length != xs.length
       then .ok ⟨[], ⟨some (dberrorsInvalid "Invalid value array"), .undefined⟩⟩
       else match store (.removeClassesFromText t x (getClassesToPatch xs)) with
         | .ok result => .ok ⟨[.removeClassesFromText t x (getClassesToPatch xs)], ⟨none, result⟩⟩
         | .err e => .ok ⟨[.removeClassesFromText t x (getClassesToPatch xs)], ⟨some e, .undefined⟩⟩) := by
  unfold patchTextClasses
  rw [ho, hv]
  rfl

theorem patchTextClasses_unsupported (store : Store) (t x : String) (patchoperation : Operation)
    (hadd : opIs patchoperation "add" = false)
    (hrem : opIs patchoperation "remove" = false) :
    patchTextClasses store t x patchoperation
      = .ok ⟨[], ⟨some (dberrorsInvalid "Unsupported operation"), .undefined⟩⟩ := by
  unfold patchTextClasses
  unfold opIs at hadd hrem
  split
  · rename_i hs; rw [hs] at hadd; simp at hadd
  · rename_i hs; rw [hs] at hrem; simp at hrem
  · rfl

theorem patchTextMetadata_unsupported (store : Store) (t x : String) (patchoperation : Operation)
    (hrep : opIs patchoperation "replace" = false) :
    patchTextMetadata store t x patchoperation
      = .ok ⟨[], ⟨some (dberrorsInvalid "Unsupported operation"), .undefined⟩⟩ := by
  unfold patchTextMetadata
  unfold opIs at hrep
  split
  · rename_i hs; rw [hs] at hrep; simp at hrep
  · rfl

/-- C4: an add or remove operation on the classes target whose value list
contains an element that does not resolve to a string id is rejected whole
with the invalid-value-array error, and no store handler is invoked (the
calls list is empty): no partial subset is applied. -/
theorem c4_invalid_class_list_rejected (store : Store) (t x : String)
    (patchoperation : Operation) (xs : List JsValue)
    (hop : opIs patchoperation "add" = true ∨ opIs patchoperation "remove" = true)
    (hval : opAccess patchoperation "value" = .arr xs)
    (hbad : ∃ c ∈ xs, (truthy c && isJsString (jsFieldSafe c "id")) = false) :
    patchTextClasses store t x patchoperation
      = .ok ⟨[], ⟨some (dberrorsInvalid "Invalid value array"), .undefined⟩⟩ := by
  have hlt : (getClassesToPatch xs).length < xs.length := by
    obtain ⟨c, hc, hcb⟩ := hbad
    have hids : getIds c = .undefined := by
      unfold getIds
      simp [hcb]
    have hmem : ∃ y ∈ xs.map getIds, truthy y = false :=
      ⟨getIds c, List.mem_map.mpr ⟨c, hc, rfl⟩, by rw [hids]; rfl⟩
    have hflt := length_filter_lt_of_mem_not truthy (xs.map getIds) hmem
    unfold getClassesToPatch
    simpa using hflt
  have hne : ((getClassesToPatch xs).length != xs.length) = true := by
    simp only [bne_iff_ne, ne_eq]
    omega
  rcases hop with ha | hr
  · rw [patchTextClasses_add store t x patchoperation xs (opIs_eq ha) hval, if_pos hne]
  · rw [patchTextClasses_remove store t x patchoperation xs (opIs_eq hr) hval, if_pos hne]

/-- C4 witness: adding a class whose element has a numeric id is rejected
without any store call. -/
theorem c4_invalid_class_list_rejected_witness :
    patchTextClasses okStore "t" "x"
        [("op", .str "add"), ("path", .str "/classes"),
         ("value", .arr [.obj [("id", .num 5)]])]
      = .ok ⟨[], ⟨some (dberrorsInvalid "Invalid value array"), .undefined⟩⟩ :=
  c4_invalid_class_list_rejected okStore "t" "x"
    [("op", .str "add"), ("path", .str "/classes"),
     ("value", .arr [.obj [("id", .num 5)]])]
    [.obj [("id", .num 5)]]
    (Or.inl rfl) rfl ⟨.obj [("id", .num 5)], by simp, rfl⟩

theorem pathIs_classes_not_metadata {o : Operation}
    (h : pathIs o "/classes" = true) : pathIs o "/metadata" = false := by
  have hp := pathIs_eq h
  unfold pathIs
  rw [hp]
  rfl

/-- C5: an operation whose path is a recognized target with an illegal
verb, or whose path is unrecognized, settles immediately: it delivers a
null error argument together with an unsupported-operation PatchError
carrying the original operation, increments only the error counter, and
makes no store call; and in any batch the delivery at index i is a
function of operation i alone, so sibling outcomes are unaffected. -/
theorem c5_unsupported_immediate_error (store : Store) (t x : String)
    (d : PatchDetails) (patchoperation : Operation)
    (h : isUnsupported patchoperation = true) :
    (∃ step, applyPatch store t x d patchoperation = .ok step
      ∧ step.details = { d with error := d.error + 1 }
      ∧ step.delivered = (none, .patchError (dberrorsInvalid "Unsupported operation") patchoperation)
      ∧ step.calls = [])
    ∧ ∀ (ops : List Operation) (res : BatchResult) (i : Nat) (hi : i < ops.length),
        editText store t x ops = .ok res →
        ∃ dv, settleOp store t x (ops.get ⟨i, hi⟩) = .ok dv
          ∧ res.deliveries.get? i = some dv := by
  constructor
  · cases hcl : pathIs patchoperation "/classes" with
    | true =>
      have hmd := pathIs_classes_not_metadata hcl
      unfold isUnsupported at h
      rw [hcl, hmd] at h
      simp only [Bool.true_and, Bool.false_and, Bool.and_false, Bool.not_true, Bool.or_false,
        Bool.false_or, Bool.and_eq_true, Bool.not_eq_true'] at h
      obtain ⟨hadd, hrem⟩ := h
      refine ⟨⟨{ d with error := d.error + 1 },
              (none, .patchError (dberrorsInvalid "Unsupported operation") patchoperation),
              [], [({ d with error := d.error + 1 }, 5 * MINUTE)]⟩, ?_, rfl, rfl, rfl⟩
      unfold applyPatch
      rw [hcl, patchTextClasses_unsupported store t x patchoperation hadd hrem]
      rfl
    | false =>
      cases hmd : pathIs patchoperation "/metadata" with
      | true =>
        unfold isUnsupported at h
        rw [hcl, hmd] at h
        simp only [Bool.false_and, Bool.true_and, Bool.not_false, Bool.not_true, Bool.and_false,
          Bool.false_or, Bool.or_false, Bool.and_eq_true, Bool.not_eq_true'] at h
        refine ⟨⟨{ d with error := d.error + 1 },
                (none, .patchError (dberrorsInvalid "Unsupported operation") patchoperation),
                [], [({ d with error := d.error + 1 }, 5 * MINUTE)]⟩, ?_, rfl, rfl, rfl⟩
        unfold applyPatch
        rw [hcl, hmd, patchTextMetadata_unsupported store t x patchoperation h]
        rfl
      | false =>
        refine ⟨⟨{ d with error := d.error + 1 },
                (none, .patchError (dberrorsInvalid "Unsupported operation") patchoperation),
                [], []⟩, ?_, rfl, rfl, rfl⟩
        unfold applyPatch
        rw [hcl, hmd]
        rfl
  · intro ops res i hi hET
    obtain ⟨d2, ds, cs, ps, hr, -, hdel, -, -⟩ := editText_ok_parts store t x ops res hET
    obtain ⟨dv, h1, h2⟩ := runOps_get store t x ops ⟨.running, 0, 0⟩ d2 ds cs ps i hi hr
    exact ⟨dv, h1, by rw [hdel]; exact h2⟩

/-- C5 witness: the bogus operation of the §8.6 batch settles immediately
as an unsupported-operation error with no store call, incrementing only
the error counter. -/
theorem c5_unsupported_immediate_error_witness :
    (applyPatch okStore "t" "x" ⟨.running, 0, 0⟩ opBogus).map
        (fun s => (s.details, s.delivered, s.calls))
      = .ok (⟨.running, 0, 1⟩,
             (none, .patchError (dberrorsInvalid "Unsupported operation") opBogus), []) := by
  obtain ⟨⟨step, hstep, h1, h2, h3⟩, -⟩ :=
    c5_unsupported_immediate_error okStore "t" "x" ⟨.running, 0, 0⟩ opBogus rfl
  rw [hstep]
  simp only [Except.map]
  rw [h1, h2, h3]

/-- C10: an add or remove operation on the classes target whose value is
absent or not an array makes the class-patch handler throw a type error
instead of delivering an error value to its callback; placed first in a
batch, the run aborts with the counters untouched, so the operation is
counted in neither counter. -/
theorem c10_nonarray_value_throws (store : Store) (t x : String)
    (patchoperation : Operation)
    (hpath : pathIs patchoperation "/classes" = true)
    (hop : opIs patchoperation "add" = true ∨ opIs patchoperation "remove" = true)
    (hval : ∀ xs : List JsValue, opAccess patchoperation "value" ≠ .arr xs) :
    patchTextClasses store t x patchoperation
        = .error "patchoperation.value.map is not a function"
    ∧ ∀ rest : List Operation,
        editText store t x (patchoperation :: rest)
          = .error ("patchoperation.value.map is not a function", ⟨.running, 0, 0⟩) := by
  have hthrow : patchTextClasses store t x patchoperation
      = .error "patchoperation.value.map is not a function" := by
    rcases hop with ha | hr
    · have ho := opIs_eq ha
      unfold patchTextClasses
      rw [ho]
      cases hv : opAccess patchoperation "value" with
      | arr xs => exact absurd hv (hval xs)
      | undefined => rfl
      | null => rfl
      | bool b => rfl
      | num n => rfl
      | str s => rfl
      | obj kvs => rfl
    · have ho := opIs_eq hr
      unfold patchTextClasses
      rw [ho]
      cases hv : opAccess patchoperation "value" with
      | arr xs => exact absurd hv (hval xs)
      | undefined => rfl
      | null => rfl
      | bool b => rfl
      | num n => rfl
      | str s => rfl
      | obj kvs => rfl
  refine ⟨hthrow, fun rest => ?_⟩
  simp only [editText, runOps]
  unfold applyPatch
  rw [hpath, hthrow]
  rfl

/-- C10 witness: an add on the classes target with no value at all throws
and aborts the batch with both counters still zero. -/
theorem c10_nonarray_value_throws_witness :
    editText okStore "t" "x" [[("op", .str "add"), ("path", .str "/classes")]]
      = .error ("patchoperation.value.map is not a function", ⟨.running, 0, 0⟩) :=
  (c10_nonarray_value_throws okStore "t" "x"
    [("op", .str "add"), ("path", .str "/classes")]
    rfl (Or.inl rfl) (fun _ h => JsValue.noConfusion h)).2 []

/-- C2 counterexample: on the §8.6 batch, with both store calls
succeeding, the status record eventually holds status COMPLETE (with
success 2 and error 1), not status ERROR as the claim states. -/
theorem c2_status_counterexample :
    (editText okStore "t" "x" exampleBatch).map (fun r => r.details)
      = .ok ⟨.complete, 2, 1⟩
    ∧ (⟨.complete, 2, 1⟩ : PatchDetails).status ≠ .error :=
  ⟨rfl, by decide⟩

/-- C2 amended: for the §8.6 batch in which the first two operations
succeed against the store, the status record eventually returned is
status COMPLETE with success 2 and error 1 (the ERROR terminal branch is
never taken because every failure is delivered as a value). -/
theorem c2_amended_status (store : Store) (t x : String) (r1 r2 : JsValue)
    (h1 : store (.addClassesToText t x [.str "c1", .str "c2"]) = .ok r1)
    (h2 : store (.updateTextMetadata t x (.obj [("value", .str "x"), ("metadata", .obj [])]))
      = .ok r2) :
    (editText store t x exampleBatch).map (fun r => r.details) = .ok ⟨.complete, 2, 1⟩ := by
  have s1 : applyPatch store t x ⟨.running, 0, 0⟩ opAddClasses
      = .ok ⟨⟨.running, 1, 0⟩, (none, .success r1),
             [.addClassesToText t x [.str "c1", .str "c2"]],
             [(⟨.running, 1, 0⟩, 5 * MINUTE)]⟩ := by
    have hp : patchTextClasses store t x opAddClasses
        = match store (.addClassesToText t x [.str "c1", .str "c2"]) with
          | .ok result => .ok ⟨[.addClassesToText t x [.str "c1", .str "c2"]], ⟨none, result⟩⟩
          | .err e => .ok ⟨[.addClassesToText t x [.str "c1", .str "c2"]], ⟨some e, .undefined⟩⟩ := rfl
    rw [h1] at hp
    unfold applyPatch
    rw [show pathIs opAddClasses "/classes" = true from rfl, hp]
    rfl
  have s2 : applyPatch store t x ⟨.running, 1, 0⟩ opReplaceMetadata
      = .ok ⟨⟨.running, 2, 0⟩, (none, .success r2),
             [.updateTextMetadata t x (.obj [("value", .str "x"), ("metadata", .obj [])])],
             [(⟨.running, 2, 0⟩, 5 * MINUTE)]⟩ := by
    have hp : patchTextMetadata store t x opReplaceMetadata
        = match store (.updateTextMetadata t x (.obj [("value", .str "x"), ("metadata", .obj [])])) with
          | .ok result =>
            .ok ⟨[.updateTextMetadata t x (.obj [("value", .str "x"), ("metadata", .obj [])])],
                 ⟨none, result⟩⟩
          | .err e =>
            .ok ⟨[.updateTextMetadata t x (.obj [("value", .str "x"), ("metadata", .obj [])])],
                 ⟨some e, .undefined⟩⟩ := rfl
    rw [h2] at hp
    unfold applyPatch
    rw [show pathIs opReplaceMetadata "/classes" = false from rfl,
        show pathIs opReplaceMetadata "/metadata" = true from rfl, hp]
    rfl
  have s3 : applyPatch store t x ⟨.running, 2, 0⟩ opBogus
      = .ok ⟨⟨.running, 2, 1⟩,
             (none, .patchError (dberrorsInvalid "Unsupported operation") opBogus), [], []⟩ := rfl
  simp only [editText, exampleBatch, runOps, s1, s2, s3]
  rfl

/-- C2 amended witness: with an always-succeeding store, the §8.6 batch
ends COMPLETE with success 2 and error 1. -/
theorem c2_amended_status_witness :
    (editText okStore "t" "x" exampleBatch).map (fun r => r.details)
      = .ok ⟨.complete, 2, 1⟩ :=
  c2_amended_status okStore "t" "x" (.obj []) (.obj []) rfl rfl

/-- C6 counterexample: for a successful classes add whose store result is
an object with a non-empty classes list, an event is published but its
name is the literal text:update:unknown:unknown (the store result carries
no operation field, and the name has the fixed prefix), not the
aspect:verb form classes:add the claim states. -/
theorem c6_event_name_counterexample :
    (editText classStore "t" "x" [opAddClasses]).map
        (fun r => r.events.map (fun evs => evs.map (fun e => e.name)))
      = .ok (.ok ["text:update:unknown:unknown"])
    ∧ "text:update:unknown:unknown" ≠ "classes:add" :=
  ⟨rfl, by decide⟩

theorem socketMessageNameBuilder_eq (operation : JsValue) :
    socketMessageNameBuilder operation
      = eventAspect operation ++ ":" ++ eventVerb operation := rfl

theorem eventsOf_eq_spec (textid : String) :
    ∀ outs : List Outcome, eventsOf textid outs = eventsSpec textid outs
  | [] => rfl
  | data :: rest => by
    have ih := eventsOf_eq_spec textid rest
    unfold eventsOf eventsSpec
    rw [ih, socketMessageNameBuilder_eq]

/-- C6 amended: the name of every event the batch publishes is the fixed
text:update: prefix followed by aspect and colon and verb, where aspect
and verb are derived from the operation field of the outcome itself —
present only on error outcomes, which wrap the original operation; success
results from the store normally lack it, so both parts fall back to the
unknown token — aspect being the string path with a leading slash stripped
when truthy, else unknown, and verb the string-coerced op when truthy,
else unknown. -/
theorem c6_amended_event_names (store : Store) (t x : String) (ops : List Operation) :
    (editText store t x ops).map (fun r => r.events)
      = (editText store t x ops).map
          (fun r => eventsSpec x (r.deliveries.map Prod.snd)) := by
  cases h : editText store t x ops with
  | error e => rfl
  | ok res =>
    obtain ⟨d, ds, cs, ps, hr, -, hdel, -, hev⟩ := editText_ok_parts store t x ops res h
    simp only [Except.map]
    rw [hev, hdel, eventsOf_eq_spec]

/-- C7: every published payload carries the parent resource id; a
PatchError outcome always publishes, carrying the error and re-deriving a
representative value from the wrapped operation (its value.value when the
value is an object exposing one, else the whole value when the operation
has a value key); a success outcome with a truthy classes field of truthy
length publishes it under classes; otherwise one exposing metadata.value
publishes that under value; and a success outcome matching neither shape
publishes nothing. -/
theorem socketResponseBuilder_patchError (textid : String) (e : DatabaseError)
    (operation : Operation) :
    socketResponseBuilder textid (.patchError e operation)
      = (if opHasValueValue operation
         then .ok (some ⟨textid, some (e, operation), some (opValueValue operation), none⟩)
         else if opHasKey operation "value"
         then .ok (some ⟨textid, some (e, operation), none, some (opAccess operation "value")⟩)
         else .ok (some ⟨textid, some (e, operation), none, none⟩)) := rfl

theorem socketResponseBuilder_success (textid : String) (r : JsValue)
    (h1 : r ≠ .null) (h2 : r ≠ .undefined) :
    socketResponseBuilder textid (.success r)
      = (if truthy (jsFieldSafe r "classes") && truthy (jsLength (jsFieldSafe r "classes"))
         then .ok (some ⟨textid, none, none, some (jsFieldSafe r "classes")⟩)
         else if hasMetadataValue r
         then .ok (some ⟨textid, none,
             some (jsFieldSafe (jsFieldSafe r "metadata") "value"), none⟩)
         else .ok none) := by
  cases r <;> first | exact absurd rfl h1 | exact absurd rfl h2 | rfl

/-- C7: every published payload carries the parent resource id; a
PatchError outcome always publishes, carrying the error and re-deriving a
representative value from the wrapped operation (its value.value when the
value is an object exposing one, else the whole value when the operation
has a value key); a success outcome with a truthy classes field of truthy
length publishes it under classes; otherwise one exposing metadata.value
publishes that under value; and a success outcome matching neither shape
publishes nothing. -/
theorem c7_payload_shapes (textid : String) :
    (∀ (data : Outcome) (resp : SocketResponse),
        socketResponseBuilder textid data = .ok (some resp) → resp.id = textid)
    ∧ (∀ (e : DatabaseError) (operation : Operation),
        socketResponseBuilder textid (.patchError e operation)
          = .ok (some ⟨textid, some (e, operation),
              if opHasValueValue operation then some (opValueValue operation) else none,
              if opHasValueValue operation then none
              else if opHasKey operation "value" then some (opAccess operation "value")
              else none⟩))
    ∧ (∀ r : JsValue, r ≠ .null → r ≠ .undefined →
        (truthy (jsFieldSafe r "classes") && truthy (jsLength (jsFieldSafe r "classes"))) = true →
        socketResponseBuilder textid (.success r)
          = .ok (some ⟨textid, none, none, some (jsFieldSafe r "classes")⟩))
    ∧ (∀ r : JsValue, r ≠ .null → r ≠ .undefined →
        (truthy (jsFieldSafe r "classes") && truthy (jsLength (jsFieldSafe r "classes"))) = false →
        hasMetadataValue r = true →
        socketResponseBuilder textid (.success r)
          = .ok (some ⟨textid, none,
              some (jsFieldSafe (jsFieldSafe r "metadata") "value"), none⟩))
    ∧ (∀ r : JsValue, r ≠ .null → r ≠ .undefined →
        (truthy (jsFieldSafe r "classes") && truthy (jsLength (jsFieldSafe r "classes"))) = false →
        hasMetadataValue r = false →
        socketResponseBuilder textid (.success r) = .ok none
          ∧ eventsOf textid [.success r] = .ok []) := by
  refine ⟨?_, ?_, ?_, ?_, ?_⟩
  · intro data resp h
    cases data with
    | patchError e opn =>
      rw [socketResponseBuilder_patchError] at h
      split at h
      · simp only [Except.ok.injEq, Option.some.injEq] at h
        subst h
        rfl
      · split at h
        · simp only [Except.ok.injEq, Option.some.injEq] at h
          subst h
          rfl
        · simp only [Except.ok.injEq, Option.some.injEq] at h
          subst h
          rfl
    | success r =>
      cases r
      case null => exact absurd h (by simp [socketResponseBuilder])
      case undefined => exact absurd h (by simp [socketResponseBuilder])
      all_goals
        rw [socketResponseBuilder_success textid _ (fun hh => JsValue.noConfusion hh)
              (fun hh => JsValue.noConfusion hh)] at h
        split at h
        · simp only [Except.ok.injEq, Option.some.injEq] at h
          subst h
          rfl
        · split at h
          · simp only [Except.ok.injEq, Option.some.injEq] at h
            subst h
            rfl
          · simp at h
  · intro e operation
    rw [socketResponseBuilder_patchError]
    cases hvv : opHasValueValue operation <;> cases hk : opHasKey operation "value" <;>
      simp [hvv, hk]
  · intro r h1 h2 hc
    rw [socketResponseBuilder_success textid r h1 h2, if_pos hc]
  · intro r h1 h2 hc hm
    rw [socketResponseBuilder_success textid r h1 h2, if_neg (by simp [hc]), if_pos hm]
  · intro r h1 h2 hc hm
    have hb : socketResponseBuilder textid (.success r) = .ok none := by
      rw [socketResponseBuilder_success textid r h1 h2, if_neg (by simp [hc]),
          if_neg (by simp [hm])]
    refine ⟨hb, ?_⟩
    unfold eventsOf
    rw [hb]
    rfl

/-- C7 witness: a PatchError wrapping the bogus operation publishes a
payload with the id and the error only, and a success result with a
non-empty classes list publishes it under classes. -/
theorem c7_payload_shapes_witness :
    socketResponseBuilder "x" (.patchError (dberrorsInvalid "Unsupported operation") opBogus)
      = .ok (some ⟨"x", some (dberrorsInvalid "Unsupported operation", opBogus), none, none⟩)
    ∧ socketResponseBuilder "x" (.success (.obj [("classes", .arr [.str "c1"])]))
      = .ok (some ⟨"x", none, none, some (.arr [.str "c1"])⟩) :=
  ⟨(c7_payload_shapes "x").2.1 (dberrorsInvalid "Unsupported operation") opBogus,
   (c7_payload_shapes "x").2.2.1 (.obj [("classes", .arr [.str "c1"])])
     (fun h => JsValue.noConfusion h) (fun h => JsValue.noConfusion h) rfl⟩

theorem applyPatch_puts_ttl (store : Store) (t x : String) (d : PatchDetails)
    (patchoperation : Operation) (step : StepResult)
    (h : applyPatch store t x d patchoperation = .ok step) :
    ∀ p ∈ step.puts, p.2 = 5 * MINUTE := by
  unfold applyPatch at h
  cases hcl : pathIs patchoperation "/classes" with
  | true =>
    simp only [hcl] at h
    cases hc : patchTextClasses store t x patchoperation with
    | error e => simp [hc] at h
    | ok out =>
      simp only [hc] at h
      injection h with h
      subst h
      intro p hp
      rcases List.mem_singleton.mp hp with rfl
      rfl
  | false =>
    simp only [hcl] at h
    cases hmd : pathIs patchoperation "/metadata" with
    | true =>
      simp only [hmd] at h
      cases hc : patchTextMetadata store t x patchoperation with
      | error e => simp [hc] at h
      | ok out =>
        simp only [hc] at h
        injection h with h
        subst h
        intro p hp
        rcases List.mem_singleton.mp hp with rfl
        rfl
    | false =>
      simp only [hmd] at h
      injection h with h
      subst h
      intro p hp
      exact absurd hp (List.not_mem_nil p)

theorem runOps_puts_ttl (store : Store) (t x : String) :
    ∀ (ops : List Operation) (d dfin : PatchDetails)
      (ds : List (Option DatabaseError × Outcome)) (cs : List StoreCall) (ps : List PutEvent),
      runOps store t x d ops = .ok (dfin, ds, cs, ps) →
      ∀ p ∈ ps, p.2 = 5 * MINUTE
  | [], d, dfin, ds, cs, ps, h => by
    simp only [runOps] at h
    injection h with h
    simp only [Prod.mk.injEq] at h
    obtain ⟨rfl, rfl, rfl, rfl⟩ := h
    intro p hp
    exact absurd hp (List.not_mem_nil p)
  | op :: rest, d, dfin, ds, cs, ps, h => by
    simp only [runOps] at h
    split at h
    · exact (Except.noConfusion h)
    · rename_i step ha
      split at h
      · exact (Except.noConfusion h)
      · rename_i d2 ds2 cs2 ps2 hr
        injection h with h
        simp only [Prod.mk.injEq] at h
        obtain ⟨rfl, rfl, rfl, rfl⟩ := h
        intro p hp
        rcases List.mem_append.mp hp with hp1 | hp2
        · exact applyPatch_puts_ttl store t x d op step ha p hp1
        · exact runOps_puts_ttl store t x rest step.details d2 ds2 cs2 ps2 hr p hp2

/-- C8 counterexample: on a single-operation batch whose operation is
rejected for an unrecognized path, the put trace holds only the creation
write and the terminal write — there is no put for the settled operation,
although it was counted (one delivery, error counter 1), so the claimed
enumeration of one write per settled operation is wrong. -/
theorem c8_missing_settle_put_counterexample :
    (editText okStore "t" "x" [opBogus]).map (fun r => (r.puts, r.deliveries.length))
      = .ok ([(⟨.running, 0, 0⟩, 5 * MINUTE), (⟨.complete, 0, 1⟩, 5 * MINUTE)], 1)
    ∧ ([(⟨.running, 0, 0⟩, 5 * MINUTE),
        (⟨.complete, 0, 1⟩, 5 * MINUTE)] : List PutEvent).length ≠ 3 :=
  ⟨rfl, by decide⟩

/-- C8 amended: every write the batch performs (the put at creation, the
put on each operation settled through the operation handler — an operation
rejected for an unrecognized path is counted with no accompanying put —
and the terminal put) carries the fixed 5-minute TTL; the status store
returns the stored record while the most recent write is less than 5
minutes old, NOT_FOUND once 5 minutes have elapsed since that write, and
NOT_FOUND for an id never written. -/
theorem c8_amended_ttl_semantics :
    (∀ (store : Store) (t x : String) (ops : List Operation) (res : BatchResult),
        editText store t x ops = .ok res → ∀ p ∈ res.puts, p.2 = 5 * MINUTE)
    ∧ (∀ (c : StatusCache) (id : String) (rec : PatchDetails) (t0 now : Nat),
        now < t0 + 5 * MINUTE →
        patchStatus (cachePut c id rec (5 * MINUTE) t0) id now = some rec)
    ∧ (∀ (c : StatusCache) (id : String) (rec : PatchDetails) (t0 now : Nat),
        t0 + 5 * MINUTE ≤ now →
        patchStatus (cachePut c id rec (5 * MINUTE) t0) id now = none)
    ∧ (∀ (id : String) (now : Nat), patchStatus [] id now = none) := by
  refine ⟨?_, ?_, ?_, ?_⟩
  · intro store t x ops res h p hp
    obtain ⟨d, ds, cs, ps, hr, -, -, hputs, -⟩ := editText_ok_parts store t x ops res h
    rw [hputs] at hp
    rcases List.mem_append.mp hp with hp1 | hp2
    · rcases List.mem_cons.mp hp1 with rfl | hp1
      · rfl
      · exact runOps_puts_ttl store t x ops ⟨.running, 0, 0⟩ d ds cs ps hr p hp1
    · rcases List.mem_singleton.mp hp2 with rfl
      rfl
  · intro c id rec t0 now h
    simp [patchStatus, cacheGet, cachePut, List.find?, h]
  · intro c id rec t0 now h
    simp [patchStatus, cacheGet, cachePut, List.find?,
      show ¬(now < t0 + 5 * MINUTE) by omega]
  · intro id now
    rfl

/-- C8 amended witness: a record written at time 0 is retrievable at
299999 ms, gone at 300000 ms, an unwritten id reports not found, and every
put of the §8.6 batch run carries the 300000 ms TTL. -/
theorem c8_amended_ttl_semantics_witness :
    patchStatus (cachePut [] "batch" ⟨.running, 0, 0⟩ (5 * MINUTE) 0) "batch" 299999
        = some ⟨.running, 0, 0⟩
    ∧ patchStatus (cachePut [] "batch" ⟨.running, 0, 0⟩ (5 * MINUTE) 0) "batch" 300000 = none
    ∧ patchStatus [] "batch" 0 = none
    ∧ (editText okStore "t" "x" exampleBatch).map (fun r => r.puts.map Prod.snd)
        = .ok [5 * MINUTE, 5 * MINUTE, 5 * MINUTE, 5 * MINUTE] :=
  ⟨c8_amended_ttl_semantics.2.1 [] "batch" ⟨.running, 0, 0⟩ 0 299999 (by decide),
   c8_amended_ttl_semantics.2.2.1 [] "batch" ⟨.running, 0, 0⟩ 0 300000 (by decide),
   c8_amended_ttl_semantics.2.2.2 "batch" 0,
   rfl⟩

/-- C9: in the scheduler of the batch executor, every state reachable
from a fresh batch of n operations keeps the number of in-flight
operations at or below the ceiling of 10 passed to the executor: an
operation is admitted only when a slot is free. -/
theorem c9_concurrency_ceiling (n : Nat) (s : SchedulerState)
    (h : SchedulerReachable mapLimitConcurrency ⟨n, 0, 0⟩ s) :
    s.inflight ≤ mapLimitConcurrency := by
  induction h with
  | refl => simp
  | step hr hstep ih =>
    cases hstep with
    | start p f st hf => exact hf
    | settle p f st =>
      simp only at ih ⊢
      omega

/-- C9 witness: after admitting one of three pending operations, one
operation is in flight, within the ceiling. -/
theorem c9_concurrency_ceiling_witness :
    (⟨2, 1, 0⟩ : SchedulerState).inflight ≤ mapLimitConcurrency :=
  c9_concurrency_ceiling 3 ⟨2, 1, 0⟩
    (SchedulerReachable.step SchedulerReachable.refl
      (SchedulerStep.start 2 0 0 (by decide)))

end TextController
